import Mathlib

/-!
Formal model of `BatchScriptExecution.py` (Vaei/BatchScriptExecution): the file-access
reconciliation and batch-execution pipeline.  The filesystem is modelled as a pair of
predicates (`os.path.exists`, `os.access(.., W_OK)`), Python strings by Lean `String`
with executable character-list helpers mirroring `str.split` / `startswith` / `endswith`
/ substring containment, and the directory tree seen by `os.scandir` as a finitely
branching tree.  Fallible Python code (raised exceptions) is modelled with `Except`.
-/

/-! ## Python string primitives, executable over the character list -/

/-- Python `s.startswith(p)`. -/
def strStartsWith (s p : String) : Bool := p.data.isPrefixOf s.data

/-- Python `s.endswith(suf)`. -/
def strEndsWith (s suf : String) : Bool := suf.data.reverse.isPrefixOf s.data.reverse

/-- Occurrence of `needle` as a contiguous sublist of `hay` (Python `needle in hay`). -/
def subOccurs (needle : List Char) : List Char → Bool
  | [] => needle.isPrefixOf []
  | c :: cs => needle.isPrefixOf (c :: cs) || subOccurs needle cs

/-- Python `needle in hay` for strings. -/
def containsSub (hay needle : String) : Bool := subOccurs needle.data hay.data

/-- Split a character list on a separator character; never returns the empty list. -/
def splitChar (sep : Char) : List Char → List (List Char)
  | [] => [[]]
  | c :: cs =>
    match splitChar sep cs with
    | [] => [[]]
    | g :: gs => if c = sep then [] :: g :: gs else (c :: g) :: gs

/-- Python `s.split(sep)` for a one-character separator. -/
def pySplit (sep : Char) (s : String) : List String :=
  (splitChar sep s.data).map String.mk

/-- Python `os.path.basename` for the forward-slash normalized paths this tool produces:
the last `/`-separated component. -/
def basename (file : String) : String := (pySplit '/' file).getLastD ""

/-! ## Data model (`FileStatus`, `FileResult`, `PendingFile`) and the filesystem model -/

/-- Source enum `FileStatus`. -/
inductive FileStatus where
  | does_not_exist
  | writable
  | read_only
  | skip
  deriving DecidableEq

/-- Source enum `FileResult`. -/
inductive FileResult where
  | success
  | failed
  | file_invalid
  | file_tampered
  | file_missing
  | file_not_found
  | file_read_only
  | file_skipped
  deriving DecidableEq

/-- The ambient filesystem, as the two OS queries the source makes:
`os.path.exists(path)` and `os.access(path, os.W_OK)`. -/
structure FsState where
  pathExists : String → Bool
  accessW : String → Bool

/-- Source `BatchScriptExecutionAccessEntry.check_file_status(path)`:
exists and writable ↦ `writable`, exists and not writable ↦ `read_only`,
otherwise ↦ `does_not_exist`. -/
def check_file_status (fs : FsState) (path : String) : FileStatus :=
  if fs.pathExists path then
    if fs.accessW path then FileStatus.writable else FileStatus.read_only
  else FileStatus.does_not_exist

/-- Source class `PendingFile` (fields `path`, `file_name`, `status`, `result`,
`warning`). -/
structure PendingFile where
  path : String
  file_name : Option String
  status : FileStatus
  result : Option FileResult
  warning : Option String
  deriving DecidableEq

/-- Source `PendingFile.__init__(path)`: classifies the path at construction time. -/
def PendingFile.build (fs : FsState) (path : String) : PendingFile :=
  { path := path, file_name := none, status := check_file_status fs path,
    result := none, warning := none }

/-! ## Reconciliation-entry operations -/

/-- Source `BatchScriptExecutionAccessEntry.refresh`: re-classifies the file unless its
status is `skip`, in which case the status is written back as `skip`. -/
def refresh (fs : FsState) (pf : PendingFile) : PendingFile :=
  { pf with status :=
      if pf.status = FileStatus.skip then FileStatus.skip
      else check_file_status fs pf.path }

/-- Source `BatchScriptExecutionAccessEntry.skip_file` (the toggle-skip action):
sets `skip` when not currently `skip`, otherwise re-classifies the path. -/
def skip_file (fs : FsState) (pf : PendingFile) : PendingFile :=
  { pf with status :=
      if pf.status ≠ FileStatus.skip then FileStatus.skip
      else check_file_status fs pf.path }

/-- Effect of `os.chmod(path, mode | write-bits)` on the modelled filesystem: the path
becomes writable; nothing else changes. -/
def chmodAddWrite (fs : FsState) (path : String) : FsState :=
  { fs with accessW := fun p => if p = path then true else fs.accessW p }

/-- Source `BatchScriptExecutionAccessEntry.make_file_writable(path)`: calls `os.stat`
then `os.chmod` adding write permission, wrapped in `except OSError` on both platform
branches (the handler reports via `cmds.error`, which raises).  `os.stat` raises
unconditionally on a nonexistent path; on an EXISTING path `os.chmod` itself may still
raise `OSError` — e.g. `PermissionError`/EPERM when the process does not own the file —
which the `chmodErr` oracle models: `some e` means the permission change raises with
message `e`, `none` means it succeeds and the path becomes writable. -/
def make_file_writable (fs : FsState) (chmodErr : String → Option String) (path : String) :
    Except String FsState :=
  if fs.pathExists path then
    match chmodErr path with
    | some e => Except.error e
    | none => Except.ok (chmodAddWrite fs path)
  else Except.error "OSError raised by os.stat on a nonexistent path"

/-- Source `BatchScriptExecutionAccessEntry.make_writable`: guarded by a fresh
`check_file_status == read_only`; when the guard holds it chmods the file and then
refreshes the entry, otherwise it does nothing at all. -/
def make_writable (fs : FsState) (chmodErr : String → Option String) (pf : PendingFile) :
    Except String (FsState × PendingFile) :=
  if check_file_status fs pf.path = FileStatus.read_only then
    match make_file_writable fs chmodErr pf.path with
    | Except.error e => Except.error e
    | Except.ok fs2 => Except.ok (fs2, refresh fs2 pf)
  else Except.ok (fs, pf)

/-! ## The access handler over the pending-file dictionary -/

/-- Source `BatchScriptExecutionAccessHandler.can_continue`: iterates
`self.files.items()` (path ↦ `PendingFile`) and returns `False` on the first entry
whose status is `read_only`, else `True`. -/
def can_continue : List (String × PendingFile) → Bool
  | [] => true
  | (_, file) :: rest =>
    if file.status = FileStatus.read_only then false else can_continue rest

/-- Python iteration over a `PendingFile` value.  `self.files` maps a path to a single
`PendingFile`, and the class defines neither iteration protocol method, so
`for file in files:` raises `TypeError` immediately. -/
def pyIterPendingFile (_file : PendingFile) : Except String (List PendingFile) :=
  Except.error "TypeError: PendingFile object is not iterable"

/-- Source `BatchScriptExecutionAccessHandler.press_refresh_button`: the outer loop
walks `self.files.items()`; the inner `for file in files:` iterates the dictionary
VALUE (a single `PendingFile`), so it raises on the first entry; on an empty
dictionary only `update_continue_button` runs. -/
def press_refresh_button (fs : FsState) : List (String × PendingFile) → Except String Unit
  | [] => Except.ok ()
  | (_scene, files) :: rest =>
    match pyIterPendingFile files with
    | Except.error e => Except.error e
    | Except.ok inner =>
      let _ := inner.map (refresh fs)
      press_refresh_button fs rest

/-- Inner loop of `press_checkout_button`: same malformed iteration as
`press_refresh_button` (per-file checkout would run in the unreachable `ok` case). -/
def press_checkout_button_loop (fs : FsState) : List (String × PendingFile) → Except String Unit
  | [] => Except.ok ()
  | (_scene, files) :: rest =>
    match pyIterPendingFile files with
    | Except.error e => Except.error e
    | Except.ok _ => press_checkout_button_loop fs rest

/-- Source `BatchScriptExecutionAccessHandler.press_checkout_button`: runs its own
nested loop and then delegates to `press_refresh_button`. -/
def press_checkout_button (fs : FsState) (files : List (String × PendingFile)) :
    Except String Unit :=
  match press_checkout_button_loop fs files with
  | Except.error e => Except.error e
  | Except.ok _ => press_refresh_button fs files

/-! ## The filter stage of `execute_script` -/

/-- The source computes `file_name = os.path.basename(file).split(".")[0]`: the part of
the basename before its FIRST dot. -/
def first_dot_stem (file : String) : String := (pySplit '.' (basename file)).headD ""

/-- The source computes `file_extension = os.path.basename(file).split(".")[-1]`: the
part of the basename after its last dot. -/
def last_dot_ext (file : String) : String := (pySplit '.' (basename file)).getLastD ""

/-- Source check `if prefix and file_name.startswith(prefix)` (`pre` models the Python
variable holding the configured filter text; an empty string is falsy). -/
def excluded_by_pre (pre file : String) : Bool :=
  pre != "" && strStartsWith (first_dot_stem file) pre

/-- Source check `if suffix and file_name.endswith(suffix)`, where `file_name` is the
basename segment before the first dot. -/
def excluded_by_suffix (suffix file : String) : Bool :=
  suffix != "" && strEndsWith (first_dot_stem file) suffix

/-- Source check `if filter_string and filter_string in file_name`. -/
def excluded_by_string (filter_string file : String) : Bool :=
  filter_string != "" && containsSub (first_dot_stem file) filter_string

/-- Source check `if file_type and file_extension not in file_type` (an empty
configured list is falsy). -/
def excluded_by_type (file_type : List String) (file : String) : Bool :=
  !file_type.isEmpty && !(file_type.contains (last_dot_ext file))

/-- The per-file decision of the filter loop: the chain of the four checks in source
order (first match excludes and skips the later checks). -/
def keep_file (pre suffix filter_string : String) (file_type : List String)
    (file : String) : Bool :=
  if excluded_by_pre pre file then false
  else if excluded_by_suffix suffix file then false
  else if excluded_by_string filter_string file then false
  else if excluded_by_type file_type file then false
  else true

/-- Source filter loop over `maya_files` in `execute_script` (lines 721-738), building
`filtered_files`: each file runs the four checks in order, `continue` on the first that
fires, otherwise it is appended. -/
def filter_files (pre suffix filter_string : String) (file_type : List String) :
    List String → List String
  | [] => []
  | file :: rest =>
    if excluded_by_pre pre file then filter_files pre suffix filter_string file_type rest
    else if excluded_by_suffix suffix file then
      filter_files pre suffix filter_string file_type rest
    else if excluded_by_string filter_string file then
      filter_files pre suffix filter_string file_type rest
    else if excluded_by_type file_type file then
      filter_files pre suffix filter_string file_type rest
    else file :: filter_files pre suffix filter_string file_type rest

/-- Modelled from the spec (for comparison with the source-derived filter, not from the
code): the spec says the suffix filter excludes a file when its basename MINUS ITS
EXTENSION ends with the configured suffix; basename minus extension is the basename
with everything from the last dot on removed. -/
def spec_suffix_excludes (suffix file : String) : Bool :=
  let stem := String.mk (List.intercalate ['.']
    (((pySplit '.' (basename file)).dropLast).map String.data))
  suffix != "" && strEndsWith stem suffix

/-! ## The directory scanner `do_gather_maya_files` -/

mutual
/-- The directory tree visible to `os.scandir`: a directory holds plain file names and
named subdirectories, in scandir order. -/
inductive FsTree where
  | node : List String → FsForest → FsTree
/-- The list of named subdirectories of a directory. -/
inductive FsForest where
  | nil : FsForest
  | cons : String → FsTree → FsForest → FsForest
end

/-- File names of an `FsTree` root. -/
def FsTree.files : FsTree → List String
  | .node fls _ => fls

/-- Immediate subdirectories of an `FsTree` root. -/
def FsTree.forest : FsTree → FsForest
  | .node _ f => f

/-- Named immediate subdirectories as a list. -/
def forestToList : FsForest → List (String × FsTree)
  | .nil => []
  | .cons n t f => (n, t) :: forestToList f

/-- First pass of `do_gather_maya_files`: the files of the current directory whose name
ends with `.mb` or `.ma`, with the normalized path `directory + "/" + name`. -/
def rootMayaFiles (directory : String) : List String → List String
  | [] => []
  | n :: rest =>
    if strEndsWith n ".mb" || strEndsWith n ".ma" then
      (directory ++ "/" ++ n) :: rootMayaFiles directory rest
    else rootMayaFiles directory rest

mutual
/-- Source `do_gather_maya_files(directory, recursion_depth)` over the modelled tree:
negative depth returns `[]`; otherwise the matching files of the current directory,
followed (when `recursion_depth > 0`) by the recursive scan of each subdirectory with
the depth decremented (`do_gather_forest` is the source's second `for entry in
os.scandir` loop restricted to directories). -/
def do_gather_maya_files (directory : String) (recursion_depth : Int) : FsTree → List String
  | .node fls f =>
    if recursion_depth < 0 then []
    else
      rootMayaFiles directory fls ++
      (if 0 < recursion_depth then do_gather_forest directory recursion_depth f else [])
/-- The subdirectory pass of `do_gather_maya_files`. -/
def do_gather_forest (directory : String) (recursion_depth : Int) : FsForest → List String
  | .nil => []
  | .cons n t f =>
    do_gather_maya_files (directory ++ "/" ++ n) (recursion_depth - 1) t ++
    do_gather_forest directory recursion_depth f
end

mutual
/-- Directories reachable from the root within `depth` hops (the root itself at zero
hops), paired with their paths, in scan order. -/
def dirsWithin (directory : String) (depth : Int) : FsTree → List (String × FsTree)
  | .node fls f =>
    (directory, FsTree.node fls f) ::
      (if 0 < depth then dirsWithinForest directory depth f else [])
/-- `dirsWithin`, over a forest of subdirectories. -/
def dirsWithinForest (directory : String) (depth : Int) : FsForest → List (String × FsTree)
  | .nil => []
  | .cons n t f =>
    dirsWithin (directory ++ "/" ++ n) (depth - 1) t ++ dirsWithinForest directory depth f
end

/-! ## The batch-execution loop of `execute_script` -/

/-- Python `str(status)` for the `FileStatus` enum. -/
def statusStr : FileStatus → String
  | FileStatus.does_not_exist => "FileStatus.does_not_exist"
  | FileStatus.writable => "FileStatus.writable"
  | FileStatus.read_only => "FileStatus.read_only"
  | FileStatus.skip => "FileStatus.skip"

/-- The warning text attached in the state-mismatch branch of the execution loop. -/
def file_state_warning (s : FileStatus) : String :=
  "File could not be processed due to file state: " ++ statusStr s

/-- The per-file execution loop of `execute_script` (lines 775-819).  `script` models
the caller-supplied mutation step on one file: `cmds.file(open)`, then
`exec`/`mel.eval` of the user command, then the optional save; `Except.error`
is a raised Python exception.  Mirrors the source exactly: a non-`writable` stored
status records a result by status and continues; a stored `writable` status triggers a
fresh `check_file_status` (drift check) recording `file_missing`/`file_tampered` and
continuing when it fails; otherwise the script runs with NO try/except, so an
exception propagates and ends the whole loop, and on success no result is assigned. -/
def execute_loop (fs : FsState) (script : String → Except String Unit) :
    List (String × PendingFile) → Except String (List (String × PendingFile))
  | [] => Except.ok []
  | (file, pending_file) :: rest =>
    if pending_file.status ≠ FileStatus.writable then
      let r : Option FileResult :=
        if pending_file.status = FileStatus.skip then some FileResult.file_skipped
        else if pending_file.status = FileStatus.does_not_exist then
          some FileResult.file_not_found
        else if pending_file.status = FileStatus.read_only then
          some FileResult.file_read_only
        else pending_file.result
      let pf := { pending_file with
                  result := r,
                  warning := some (file_state_warning pending_file.status) }
      Except.map (fun l => (file, pf) :: l) (execute_loop fs script rest)
    else
      if check_file_status fs file ≠ FileStatus.writable then
        let tampered_missing := !(fs.pathExists file)
        let r := if tampered_missing then FileResult.file_missing else FileResult.file_tampered
        let pf := { pending_file with result := some r }
        Except.map (fun l => (file, pf) :: l) (execute_loop fs script rest)
      else
        match script file with
        | Except.error e => Except.error e
        | Except.ok _ => Except.map (fun l => (file, pending_file) :: l)
            (execute_loop fs script rest)

/-! ## Concrete fixtures for witnesses and counterexamples -/

/-- Filesystem in which every path exists and is writable. -/
def fsAll : FsState := { pathExists := fun _ => true, accessW := fun _ => true }

/-- Filesystem in which no path exists. -/
def fsEmpty : FsState := { pathExists := fun _ => false, accessW := fun _ => false }

/-- Filesystem in which every path exists but none is writable. -/
def fsLocked : FsState := { pathExists := fun _ => true, accessW := fun _ => false }

/-- A pending file recorded as `writable`. -/
def pfWritA : PendingFile :=
  { path := "d/a.mb", file_name := none, status := FileStatus.writable,
    result := none, warning := none }

/-- A second pending file recorded as `writable`. -/
def pfWritB : PendingFile :=
  { path := "d/b.mb", file_name := none, status := FileStatus.writable,
    result := none, warning := none }

/-- A pending file recorded as `skip`. -/
def pfSkipA : PendingFile :=
  { path := "d/a.mb", file_name := none, status := FileStatus.skip,
    result := none, warning := none }

/-- A second pending file recorded as `skip`. -/
def pfSkipB : PendingFile :=
  { path := "d/b.mb", file_name := none, status := FileStatus.skip,
    result := none, warning := none }

/-- A pending file recorded as `does_not_exist`. -/
def pfMissA : PendingFile :=
  { path := "d/a.mb", file_name := none, status := FileStatus.does_not_exist,
    result := none, warning := none }

/-- A pending file recorded as `read_only`. -/
def pfReadOnlyA : PendingFile :=
  { path := "d/a.mb", file_name := none, status := FileStatus.read_only,
    result := none, warning := none }

/-- A script run that raises on every file. -/
def failScript : String → Except String Unit := fun _ => Except.error "boom"

/-- A script run that succeeds on every file. -/
def okScript : String → Except String Unit := fun _ => Except.ok ()

/-! ## Claim C7: the classifier -/

/-- C7: `check_file_status` is a pure total function returning `does_not_exist` exactly
for nonexistent paths, `writable` exactly for existing paths with write access, and
`read_only` exactly for existing paths without write access; being a total Lean
function it cannot throw on a nonexistent path. -/
theorem C7_classify_total (fs : FsState) (path : String) :
    (check_file_status fs path = FileStatus.does_not_exist ↔ fs.pathExists path = false) ∧
    (check_file_status fs path = FileStatus.writable ↔
      fs.pathExists path = true ∧ fs.accessW path = true) ∧
    (check_file_status fs path = FileStatus.read_only ↔
      fs.pathExists path = true ∧ fs.accessW path = false) := by
  unfold check_file_status
  cases h1 : fs.pathExists path <;> cases h2 : fs.accessW path <;> simp [h1, h2]

/-! ## Claim C8: refresh keeps skip sticky -/

/-- C8: `refresh` on a `skip` entry is the identity regardless of the filesystem, and
on any other entry replaces the status with a fresh classification of the path,
touching no other field. -/
theorem C8_refresh_sticky_skip (fs : FsState) (pf : PendingFile) :
    (pf.status = FileStatus.skip → refresh fs pf = pf) ∧
    (pf.status ≠ FileStatus.skip →
      refresh fs pf = { pf with status := check_file_status fs pf.path }) := by
  obtain ⟨p, n, st, r, w⟩ := pf
  constructor <;> intro h <;> simp_all [refresh]

/-- Witness for C8 at concrete inputs: a skipped entry survives `refresh` unchanged
even though its path does not exist, and a `does_not_exist` entry is re-classified. -/
theorem C8_refresh_sticky_skip_witness :
    refresh fsEmpty pfSkipA = pfSkipA ∧
    refresh fsAll pfMissA = { pfMissA with status := check_file_status fsAll pfMissA.path } :=
  ⟨(C8_refresh_sticky_skip fsEmpty pfSkipA).1 (by decide),
   (C8_refresh_sticky_skip fsAll pfMissA).2 (by decide)⟩

/-! ## Claim C9: toggle-skip -/

/-- C9: `skip_file` sets the status to `skip` when the entry is not skipped and to a
fresh classification when it is; applying it twice to a non-skipped entry over an
unchanged filesystem leaves the status equal to the classification of the path. -/
theorem C9_toggle_skip (fs : FsState) (pf : PendingFile) :
    (pf.status ≠ FileStatus.skip →
      skip_file fs pf = { pf with status := FileStatus.skip }) ∧
    (pf.status = FileStatus.skip →
      skip_file fs pf = { pf with status := check_file_status fs pf.path }) ∧
    (pf.status ≠ FileStatus.skip →
      (skip_file fs (skip_file fs pf)).status = check_file_status fs pf.path) := by
  obtain ⟨p, n, st, r, w⟩ := pf
  refine ⟨fun h => ?_, fun h => ?_, fun h => ?_⟩ <;> simp_all [skip_file]

/-- Witness for C9 at a concrete input: toggling a writable entry skips it, and a
double toggle lands on the fresh classification of the path. -/
theorem C9_toggle_skip_witness :
    skip_file fsAll pfWritA = { pfWritA with status := FileStatus.skip } ∧
    (skip_file fsAll (skip_file fsAll pfWritA)).status = check_file_status fsAll pfWritA.path :=
  ⟨(C9_toggle_skip fsAll pfWritA).1 (by decide),
   (C9_toggle_skip fsAll pfWritA).2.2 (by decide)⟩

/-! ## Claim C10: force-writable only acts on a freshly read-only path -/

/-- A chmod oracle under which every permission change raises `OSError` (e.g. the
process owns none of the files). -/
def chmodAlwaysDenied : String → Option String := fun _ => some "PermissionError: EPERM"

/-- C10: whenever the fresh classification of the path is `writable` or
`does_not_exist`, `make_writable` returns the filesystem and the entry unchanged, for
EVERY chmod-outcome oracle — so it never attempts the permission change at all, and in
particular the `os.stat`/`os.chmod` error branch is unreachable for a missing file. -/
theorem C10_force_writable_guard (fs : FsState) (chmodErr : String → Option String)
    (pf : PendingFile)
    (h : check_file_status fs pf.path = FileStatus.writable ∨
      check_file_status fs pf.path = FileStatus.does_not_exist) :
    make_writable fs chmodErr pf = Except.ok (fs, pf) := by
  rcases h with h | h <;> simp [make_writable, h]

/-- Witness for C10 at concrete inputs: even under an oracle where every chmod would
raise, a missing path and a writable path are both left completely untouched. -/
theorem C10_force_writable_guard_witness :
    make_writable fsEmpty chmodAlwaysDenied pfMissA = Except.ok (fsEmpty, pfMissA) ∧
    make_writable fsAll chmodAlwaysDenied pfWritA = Except.ok (fsAll, pfWritA) :=
  ⟨C10_force_writable_guard fsEmpty chmodAlwaysDenied pfMissA (by decide),
   C10_force_writable_guard fsAll chmodAlwaysDenied pfWritA (by decide)⟩

/-! ## Claim C3: the can-proceed gate -/

/-- Helper: `can_continue` is true exactly when no entry has status `read_only`. -/
theorem can_continue_iff (files : List (String × PendingFile)) :
    can_continue files = true ↔ ∀ p ∈ files, p.2.status ≠ FileStatus.read_only := by
  induction files with
  | nil => simp [can_continue]
  | cons hd tl ih =>
    obtain ⟨s, f⟩ := hd
    by_cases h : f.status = FileStatus.read_only
    · simp [can_continue, h]
    · simp [can_continue, h, ih]

/-- C3: `can_continue` is true iff no entry is `read_only`; equivalently false iff some
non-skipped entry is `read_only`; it is true on an all-missing collection and on a
collection of only writable and skipped entries. -/
theorem C3_can_proceed (files : List (String × PendingFile)) :
    (can_continue files = true ↔ ∀ p ∈ files, p.2.status ≠ FileStatus.read_only) ∧
    (can_continue files = false ↔
      ∃ p ∈ files, p.2.status ≠ FileStatus.skip ∧ p.2.status = FileStatus.read_only) ∧
    ((∀ p ∈ files, p.2.status = FileStatus.does_not_exist) → can_continue files = true) ∧
    ((∀ p ∈ files, p.2.status = FileStatus.writable ∨ p.2.status = FileStatus.skip) →
      can_continue files = true) := by
  refine ⟨can_continue_iff files, ?_, ?_, ?_⟩
  · rw [← Bool.not_eq_true, can_continue_iff]
    push_neg
    constructor
    · rintro ⟨p, hp, hro⟩
      exact ⟨p, hp, by simp [hro], hro⟩
    · rintro ⟨p, hp, _, hro⟩
      exact ⟨p, hp, hro⟩
  · intro h
    rw [can_continue_iff]
    intro p hp
    simp [h p hp]
  · intro h
    rw [can_continue_iff]
    intro p hp
    rcases h p hp with h1 | h1 <;> simp [h1]

/-- Witness for C3 at concrete inputs: an all-missing collection proceeds, and a
writable-plus-skipped collection proceeds. -/
theorem C3_can_proceed_witness :
    can_continue [("d/a.mb", pfMissA)] = true ∧
    can_continue [("d/a.mb", pfWritA), ("d/b.mb", pfSkipB)] = true :=
  ⟨(C3_can_proceed [("d/a.mb", pfMissA)]).2.2.1 (by decide),
   (C3_can_proceed [("d/a.mb", pfWritA), ("d/b.mb", pfSkipB)]).2.2.2 (by decide)⟩

/-! ## Claim C5: scanner depth semantics -/

/-- Helper: the subdirectory pass is the concatenation, over the immediate
subdirectories, of the scan with decremented depth. -/
theorem do_gather_forest_eq_flatMap (d : String) (k : Int) :
    ∀ f : FsForest, do_gather_forest d k f =
      (forestToList f).flatMap
        (fun p => do_gather_maya_files (d ++ "/" ++ p.1) (k - 1) p.2)
  | FsForest.nil => by simp [do_gather_forest, forestToList]
  | FsForest.cons n t f => by
    simp [do_gather_forest, forestToList, do_gather_forest_eq_flatMap d k f]

mutual
/-- Helper: at nonnegative depth the scan of a tree is the concatenation of the
depth-zero scans of every directory reachable within that many hops. -/
theorem gather_eq_dirsWithin (d : String) (k : Int) (t : FsTree) (hk : 0 ≤ k) :
    do_gather_maya_files d k t =
      (dirsWithin d k t).flatMap (fun p => do_gather_maya_files p.1 0 p.2) := by
  cases t with
  | node fls f =>
    by_cases hpos : 0 < k
    · simp only [do_gather_maya_files, dirsWithin, List.flatMap_cons, if_pos hpos,
        if_neg (by omega : ¬ k < 0), gather_forest_eq_dirsWithin d k f hpos]
      simp [do_gather_maya_files, List.flatMap]
    · simp [do_gather_maya_files, dirsWithin, if_neg hpos, if_neg (by omega : ¬ k < 0),
        List.flatMap]
/-- Helper: forest version of `gather_eq_dirsWithin`, for strictly positive depth. -/
theorem gather_forest_eq_dirsWithin (d : String) (k : Int) (f : FsForest) (hk : 0 < k) :
    do_gather_forest d k f =
      (dirsWithinForest d k f).flatMap (fun p => do_gather_maya_files p.1 0 p.2) := by
  cases f with
  | nil => simp [do_gather_forest, dirsWithinForest]
  | cons n t f =>
    simp only [do_gather_forest, dirsWithinForest, List.flatMap_append]
    rw [gather_eq_dirsWithin (d ++ "/" ++ n) (k - 1) t (by omega),
      gather_forest_eq_dirsWithin d k f hk]
end

/-- C5: scanning with negative depth yields nothing; depth zero yields exactly the
matching files of the root directory and nothing from subdirectories; depth `k > 0`
additionally yields the depth-`(k-1)` scan of each immediate subdirectory; and for any
nonnegative depth the scan equals the union of the depth-zero scans of all directories
reachable within that many hops. -/
theorem C5_scan_depth (d : String) (k : Int) (t : FsTree) :
    (k < 0 → do_gather_maya_files d k t = []) ∧
    (do_gather_maya_files d 0 t = rootMayaFiles d t.files) ∧
    (0 < k → do_gather_maya_files d k t =
      rootMayaFiles d t.files ++
        (forestToList t.forest).flatMap
          (fun p => do_gather_maya_files (d ++ "/" ++ p.1) (k - 1) p.2)) ∧
    (0 ≤ k → do_gather_maya_files d k t =
      (dirsWithin d k t).flatMap (fun p => do_gather_maya_files p.1 0 p.2)) := by
  obtain ⟨fls, f⟩ := t
  refine ⟨fun h => ?_, ?_, fun h => ?_, fun h => gather_eq_dirsWithin d k _ h⟩
  · simp [do_gather_maya_files, h]
  · simp [do_gather_maya_files, FsTree.files, if_neg (by omega : ¬ (0 : Int) < 0),
      if_neg (by omega : ¬ (0 : Int) < 0)]
  · simp [do_gather_maya_files, FsTree.files, FsTree.forest, if_pos h,
      if_neg (by omega : ¬ k < 0), do_gather_forest_eq_flatMap]

/-- A small concrete directory tree: root with `a.mb` and `x.txt`, one subdirectory `s`
holding `b.ma`. -/
def tEx : FsTree :=
  FsTree.node ["a.mb", "x.txt"]
    (FsForest.cons "s" (FsTree.node ["b.ma"] FsForest.nil) FsForest.nil)

/-- Witness for C5 at concrete inputs: negative depth yields nothing and depth one on
`tEx` matches both decompositions. -/
theorem C5_scan_depth_witness :
    do_gather_maya_files "r" (-1) tEx = [] ∧
    do_gather_maya_files "r" 1 tEx =
      rootMayaFiles "r" tEx.files ++
        (forestToList tEx.forest).flatMap
          (fun p => do_gather_maya_files ("r" ++ "/" ++ p.1) (1 - 1) p.2) ∧
    do_gather_maya_files "r" 1 tEx =
      (dirsWithin "r" 1 tEx).flatMap (fun p => do_gather_maya_files p.1 0 p.2) :=
  ⟨(C5_scan_depth "r" (-1) tEx).1 (by decide),
   (C5_scan_depth "r" 1 tEx).2.2.1 (by decide),
   (C5_scan_depth "r" 1 tEx).2.2.2 (by decide)⟩

/-! ## Claim C6: the filter stage -/

/-- Helper: the filter loop keeps exactly the files on which no check fires, in order. -/
theorem filter_files_eq_filter (pre suffix filter_string : String) (file_type : List String)
    (files : List String) :
    filter_files pre suffix filter_string file_type files =
      files.filter (keep_file pre suffix filter_string file_type) := by
  induction files with
  | nil => simp [filter_files]
  | cons file rest ih =>
    by_cases h1 : excluded_by_pre pre file = true <;>
      by_cases h2 : excluded_by_suffix suffix file = true <;>
        by_cases h3 : excluded_by_string filter_string file = true <;>
          by_cases h4 : excluded_by_type file_type file = true <;>
            simp [filter_files, keep_file, h1, h2, h3, h4, ih]

/-- C6 (amended): the filter loop filters each file independently with the four checks
in source order — prefix, then suffix, then substring, then extension, the first match
excluding the file — and the suffix check tests whether the basename segment BEFORE THE
FIRST DOT (`basename(file).split(".")[0]`) ends with the configured suffix, not the
basename minus its extension. -/
theorem C6_filter_suffix_first_dot (pre suffix filter_string : String)
    (file_type : List String) (files : List String) (file : String) :
    filter_files pre suffix filter_string file_type files =
      files.filter (keep_file pre suffix filter_string file_type) ∧
    keep_file pre suffix filter_string file_type file =
      (!excluded_by_pre pre file &&
        (!excluded_by_suffix suffix file &&
          (!excluded_by_string filter_string file && !excluded_by_type file_type file))) ∧
    excluded_by_suffix suffix file =
      (suffix != "" && strEndsWith ((pySplit '.' (basename file)).headD "") suffix) := by
  refine ⟨filter_files_eq_filter pre suffix filter_string file_type files, ?_, rfl⟩
  by_cases h1 : excluded_by_pre pre file = true <;>
    by_cases h2 : excluded_by_suffix suffix file = true <;>
      by_cases h3 : excluded_by_string filter_string file = true <;>
        by_cases h4 : excluded_by_type file_type file = true <;>
          simp [keep_file, h1, h2, h3, h4]

/-- Counterexample to C6 as stated: for the multi-dot file `d/a.x_bak.mb` and suffix
`_bak`, the basename minus the extension (`a.x_bak`) does end with `_bak`, so the claim
says the file is excluded — yet the source filter keeps it, because it tests the
segment before the first dot (`a`). -/
theorem C6_counterexample :
    spec_suffix_excludes "_bak" "d/a.x_bak.mb" = true ∧
    filter_files "" "_bak" "" ["mb", "ma"] ["d/a.x_bak.mb"] = ["d/a.x_bak.mb"] := by
  constructor <;> decide

/-! ## Claim C2: the drift re-check in the execution loop -/

/-- C2: a file whose stored status is `writable` is re-classified at execution time;
when the fresh classification is not `writable` the executor records `file_missing`
(`MissingDuringConfirmation`) if the path no longer exists and `file_tampered`
(`TamperedDuringConfirmation`) otherwise, never invokes the mutation step on the file
(the equation holds uniformly in `script`), and continues with the remaining files. -/
theorem C2_drift_recheck (fs : FsState) (script : String → Except String Unit)
    (file : String) (pf : PendingFile) (rest : List (String × PendingFile))
    (h1 : pf.status = FileStatus.writable)
    (h2 : check_file_status fs file ≠ FileStatus.writable) :
    execute_loop fs script ((file, pf) :: rest) =
      Except.map
        (fun l => (file,
          { pf with result := some (if fs.pathExists file then FileResult.file_tampered
                                    else FileResult.file_missing) }) :: l)
        (execute_loop fs script rest) := by
  cases hp : fs.pathExists file <;> simp [execute_loop, h1, h2, hp]

/-- Witness for C2 at concrete inputs: a file recorded `writable` whose path vanished
gets `file_missing`, and one whose path became read-only gets `file_tampered`. -/
theorem C2_drift_recheck_witness :
    execute_loop fsEmpty okScript [("d/a.mb", pfWritA)] =
      Except.map
        (fun l => ("d/a.mb",
          { pfWritA with result := some (if fsEmpty.pathExists "d/a.mb" then
              FileResult.file_tampered else FileResult.file_missing) }) :: l)
        (execute_loop fsEmpty okScript []) ∧
    execute_loop fsLocked okScript [("d/a.mb", pfWritA)] =
      Except.map
        (fun l => ("d/a.mb",
          { pfWritA with result := some (if fsLocked.pathExists "d/a.mb" then
              FileResult.file_tampered else FileResult.file_missing) }) :: l)
        (execute_loop fsLocked okScript []) :=
  ⟨C2_drift_recheck fsEmpty okScript "d/a.mb" pfWritA [] (by decide) (by decide),
   C2_drift_recheck fsLocked okScript "d/a.mb" pfWritA [] (by decide) (by decide)⟩

/-! ## Claim C1: outcomes of the script run -/

/-- Counterexample to C1 as stated: with two writable files and a script raising
`boom` on the first, the loop result is the propagated exception — no `failed` outcome
is recorded and the second file is never attempted; and with a succeeding script the
file's `result` stays `none` — no `success` outcome is recorded either. -/
theorem C1_counterexample :
    execute_loop fsAll failScript [("d/a.mb", pfWritA), ("d/b.mb", pfWritB)] =
      Except.error "boom" ∧
    execute_loop fsAll okScript [("d/a.mb", pfWritA)] =
      Except.ok [("d/a.mb", pfWritA)] :=
  ⟨rfl, rfl⟩

/-- C1 (amended): for a file recorded `writable` that passes the drift re-check, the
executor runs the mutation step with no exception handling: when the script raises, the
exception propagates as the result of the whole loop (the remaining files are not
attempted and no `failed` outcome is recorded), and when the script succeeds the
pending file is carried through completely unchanged (no `success` outcome is
recorded) and the loop continues with the remaining files. -/
theorem C1_exec_no_outcome (fs : FsState) (script : String → Except String Unit)
    (file : String) (pf : PendingFile) (rest : List (String × PendingFile))
    (h1 : pf.status = FileStatus.writable)
    (h2 : check_file_status fs file = FileStatus.writable) :
    (∀ e : String, script file = Except.error e →
      execute_loop fs script ((file, pf) :: rest) = Except.error e) ∧
    ∀ u : Unit, script file = Except.ok u →
      execute_loop fs script ((file, pf) :: rest) =
        Except.map (fun l => (file, pf) :: l) (execute_loop fs script rest) := by
  constructor
  · intro e he
    simp [execute_loop, h1, h2, he]
  · intro u hu
    simp [execute_loop, h1, h2, hu]

/-- Witness for C1 at concrete inputs: the raising script aborts the loop with its
message, and the succeeding script carries the entry through unchanged. -/
theorem C1_exec_no_outcome_witness :
    execute_loop fsAll failScript [("d/a.mb", pfWritA)] = Except.error "boom" ∧
    execute_loop fsAll okScript [("d/a.mb", pfWritA)] =
      Except.map (fun l => ("d/a.mb", pfWritA) :: l) (execute_loop fsAll okScript []) :=
  ⟨(C1_exec_no_outcome fsAll failScript "d/a.mb" pfWritA [] (by decide) (by decide)).1
      "boom" rfl,
   (C1_exec_no_outcome fsAll okScript "d/a.mb" pfWritA [] (by decide) (by decide)).2
      () rfl⟩

/-! ## Claim C4: the bulk checkout/refresh buttons -/

/-- C4 (the code is broken here): on any non-empty collection the bulk refresh and bulk
checkout handlers raise `TypeError` at the first entry — the inner `for file in files:`
iterates a single `PendingFile` value — so `refresh`/`checkout` is applied to no entry
at all, contrary to the claim that they are applied to every entry. -/
theorem C4_bulk_buttons_raise :
    press_refresh_button fsAll [("d/a.mb", pfWritA)] =
      Except.error "TypeError: PendingFile object is not iterable" ∧
    press_checkout_button fsAll [("d/a.mb", pfWritA)] =
      Except.error "TypeError: PendingFile object is not iterable" :=
  ⟨rfl, rfl⟩
